import Mathlib

set_option maxRecDepth 8000

/-!
Shallow embedding of the step-orchestration core of turdus_m3rula_gui.py
(classes ProcessRunner, StepManager, ProjectState, and the MainWindow
orchestration methods).  Pure functions of the source become Lean functions;
the Qt event loop becomes an explicit state machine driven by external
events (process exit, settle-timer fire); the filesystem rooted at the
project directory becomes an explicit FS value threaded through the
operations.  Display-only effects (output_received log lines, widget
updates, the system log) are outside the model, as the spec scopes them out.
-/

/-! ### String helpers (character-list level) -/

def isPrefixCh : List Char → List Char → Bool
  | [], _ => true
  | _ :: _, [] => false
  | a :: as, b :: bs => a == b && isPrefixCh as bs

def containsSub (pat : List Char) : List Char → Bool
  | [] => isPrefixCh pat []
  | c :: cs => isPrefixCh pat (c :: cs) || containsSub pat cs

def strContains (s pat : String) : Bool := containsSub pat.data s.data

def strStartsWith (s pat : String) : Bool := isPrefixCh pat.data s.data

def strEndsWith (s pat : String) : Bool := isPrefixCh pat.data.reverse s.data.reverse

/-! ### Step status constants (class StepStatus) -/

def StepStatus.PENDING : Nat := 0
def StepStatus.RUNNING : Nat := 1
def StepStatus.SUCCESS : Nat := 2
def StepStatus.FAILED : Nat := 3

/-! ### ProjectState and its persistence (class ProjectState)

save serializes the four tracked fields into project.json; the flat
string-or-null JSON record round-trips through json.dumps/json.loads
verbatim, so the file content is modelled directly as a SavedJson record
(None becomes Option.none).  save returns none when root_dir is unset (the
early return: nothing is written).  load sets root_dir and reads the record
back; when the file is absent it installs defaults (and writes them back to
disk, a side effect not observed by any claim). -/

structure ProjectState where
  root_dir : Option String
  ipsw : Option String
  blob : Option String
  gen : Option String
  chip : String
deriving DecidableEq

structure SavedJson where
  ipsw : Option String
  blob : Option String
  gen : Option String
  chip : String
deriving DecidableEq

/-- Python truthiness of an Optional[str]: None and the empty string are falsy. -/
def truthyStr : Option String → Bool
  | none => false
  | some s => !(s == "")

def ProjectState.save (x : ProjectState) : Option SavedJson :=
  match x.root_dir with
  | none => none
  | some _ =>
    some { ipsw := if truthyStr x.ipsw then x.ipsw else none,
           blob := if truthyStr x.blob then x.blob else none,
           gen := x.gen,
           chip := x.chip }

def ProjectState.load (root_dir : String) (file : Option SavedJson) : ProjectState :=
  match file with
  | some data =>
    { root_dir := some root_dir, ipsw := data.ipsw, blob := data.blob,
      gen := data.gen, chip := data.chip }
  | none =>
    { root_dir := some root_dir, ipsw := none, blob := none, gen := none, chip := "A9" }

/-! ### Project-directory filesystem model

root lists the regular files directly in the project directory (name and
mtime; mtime feeds the most-recently-modified artifact heuristic).  block
and image4 are the two working subdirectories: none when the directory does
not exist, otherwise the list of its entries (regular files or
subdirectories; hidden names start with a dot).  List order is directory
enumeration order, which is what pathlib glob iterates in. -/

structure FileRec where
  name : String
  mtime : Nat
deriving DecidableEq

structure Entry where
  name : String
  isFile : Bool
  mtime : Nat
deriving DecidableEq

structure FS where
  root : List FileRec
  block : Option (List Entry)
  image4 : Option (List Entry)
deriving DecidableEq

def rootHas (fs : FS) (n : String) : Bool := fs.root.any (fun f => f.name == n)

/-- glob of *.bin in the project root: names ending in .bin. -/
def binFiles (fs : FS) : List FileRec := fs.root.filter (fun f => strEndsWith f.name ".bin")

/-- Python max(blocks, key=mtime): the first element of maximal mtime
(later elements replace the accumulator only on strictly greater key). -/
def pickLatest : List FileRec → Option FileRec
  | [] => none
  | f :: rest => some (rest.foldl (fun acc x => if acc.mtime < x.mtime then x else acc) f)

/-- shutil.move of a root file onto a canonical root target: the source name
disappears, any existing target is overwritten, the moved file keeps its mtime. -/
def moveRoot (fs : FS) (src dst : String) : FS :=
  match fs.root.find? (fun f => f.name == src) with
  | none => fs
  | some f =>
    { fs with root := (fs.root.filter (fun g => !(g.name == src) && !(g.name == dst))) ++ [⟨dst, f.mtime⟩] }

/-- Path.touch of the restore_done marker: ensures presence.  (A touch on an
already present file only refreshes its mtime; no code reads the marker's
mtime, so presence is the whole observable effect.) -/
def touchFile (fs : FS) (n : String) : FS :=
  if rootHas fs n then fs else { fs with root := fs.root ++ [⟨n, 0⟩] }

/-! ### Per-step completion callbacks (the closures named on_complete)

Each is FS → Bool → FS × Bool: given the chain outcome, it resolves or
creates the step's artifact and returns the final success flag.  The log
lines they print are display-only and omitted. -/

inductive CbId where
  | shc_pre
  | restore_marker
  | shc_post
  | pte
  | unteth_shc
deriving DecidableEq

def on_complete_shc_pre (fs : FS) (success : Bool) : FS × Bool :=
  if success then
    if rootHas fs "shcblock_pre.bin" then (fs, true)
    else
      match pickLatest (binFiles fs) with
      | some latest => (moveRoot fs latest.name "shcblock_pre.bin", true)
      | none => (fs, false)
  else (fs, success)

def on_complete_restore_marker (fs : FS) (success : Bool) : FS × Bool :=
  if success then (touchFile fs "restore_done", true) else (fs, success)

def on_complete_shc_post (fs : FS) (success : Bool) : FS × Bool :=
  if success then
    if rootHas fs "shcblock_post.bin" then (fs, true)
    else
      match pickLatest ((binFiles fs).filter
          (fun b => !(b.name == "shcblock_pre.bin") && !(b.name == "shcblock_post.bin"))) with
      | some latest => (moveRoot fs latest.name "shcblock_post.bin", true)
      | none => (fs, false)
  else (fs, success)

def on_complete_pte (fs : FS) (success : Bool) : FS × Bool :=
  if success then
    if rootHas fs "pteblock.bin" then (fs, true)
    else
      match pickLatest ((binFiles fs).filter
          (fun b => !(b.name == "shcblock_pre.bin") && !(b.name == "shcblock_post.bin")
                    && !(b.name == "pteblock.bin"))) with
      | some latest => (moveRoot fs latest.name "pteblock.bin", true)
      | none => (fs, false)
  else (fs, success)

def on_complete_unteth_shc (fs : FS) (success : Bool) : FS × Bool :=
  if success then
    if rootHas fs "shcblock_unteth.bin" then (fs, true)
    else
      match pickLatest (binFiles fs) with
      | some latest => (moveRoot fs latest.name "shcblock_unteth.bin", true)
      | none => (fs, false)
  else (fs, success)

def applyCallback : CbId → FS → Bool → FS × Bool
  | CbId.shc_pre, fs, s => on_complete_shc_pre fs s
  | CbId.restore_marker, fs, s => on_complete_restore_marker fs s
  | CbId.shc_post, fs, s => on_complete_shc_post fs s
  | CbId.pte, fs, s => on_complete_pte fs s
  | CbId.unteth_shc, fs, s => on_complete_unteth_shc fs s

/-! ### ProcessRunner (class ProcessRunner)

State: is_running, command_queue, and whether _on_chain_step_finished is
currently connected to process_finished.  timer_pending models a scheduled
QTimer.singleShot(100, ...) settle delay that has not fired yet.  Events
record process starts and the process_finished / command_chain_finished
signal emissions (warn records a blocking QMessageBox.warning).  The
output_received stream is display-only and omitted.  A second run_chain
while one is connected would in PyQt stack a duplicate connection; the model
keeps a single flag, and no claim below exercises a duplicated connection. -/

inductive Event where
  | procStart (cmd : String)
  | procFinished (ok : Bool) (code : Int)
  | chainFinished (ok : Bool)
  | warn
deriving DecidableEq

structure ProcessRunner where
  is_running : Bool
  command_queue : List String
  chain_connected : Bool
  timer_pending : Bool
deriving DecidableEq

def ProcessRunner.initial : ProcessRunner := ⟨false, [], false, false⟩

def ProcessRunner.run (s : ProcessRunner) (cmd : String) : ProcessRunner × List Event × Bool :=
  if s.is_running then (s, [], false)
  else ({ s with is_running := true }, [Event.procStart cmd], true)

def ProcessRunner.run_chain (s : ProcessRunner) (cmds : List String) : ProcessRunner × List Event :=
  let s1 : ProcessRunner := { s with command_queue := cmds, chain_connected := true }
  match cmds with
  | [] => (s1, [])
  | c :: rest =>
    let r := ProcessRunner.run { s1 with command_queue := rest } c
    (r.1, r.2.1)

/-- _on_finished followed (synchronously, via the signal connection) by
_on_chain_step_finished when connected.  A QProcess emits finished exactly
once per started process, so an exit event with no live process is a
non-event. -/
def onProcessExit (s : ProcessRunner) (code : Int) : ProcessRunner × List Event :=
  if s.is_running then
    let s1 : ProcessRunner := { s with is_running := false }
    if code = 0 then
      if s1.chain_connected then
        if s1.command_queue.isEmpty then
          ({ s1 with chain_connected := false },
           [Event.procFinished true code, Event.chainFinished true])
        else
          ({ s1 with timer_pending := true }, [Event.procFinished true code])
      else (s1, [Event.procFinished true code])
    else
      if s1.chain_connected then
        ({ s1 with command_queue := [], chain_connected := false },
         [Event.procFinished false code, Event.chainFinished false])
      else (s1, [Event.procFinished false code])
  else (s, [])

/-- The settle-delay timer firing: run(command_queue.pop(0)).  A timer that
was never scheduled does not fire. -/
def onTimerFire (s : ProcessRunner) : ProcessRunner × List Event :=
  if s.timer_pending then
    let s1 : ProcessRunner := { s with timer_pending := false }
    match s1.command_queue with
    | [] => (s1, [])
    | c :: rest =>
      let r := ProcessRunner.run { s1 with command_queue := rest } c
      (r.1, r.2.1)
  else (s, [])

/-- External events the runner reacts to. -/
inductive Ev where
  | exit (code : Int)
  | timer
deriving DecidableEq

def stepEv (s : ProcessRunner) : Ev → ProcessRunner × List Event
  | Ev.exit k => onProcessExit s k
  | Ev.timer => onTimerFire s

def drive (s : ProcessRunner) : List Ev → ProcessRunner × List Event
  | [] => (s, [])
  | e :: es =>
    let p := stepEv s e
    let q := drive p.1 es
    (q.1, p.2 ++ q.2)

/-- run_chain on a fresh runner followed by an arbitrary external event
sequence: final runner state and the full emitted trace. -/
def chainRun (cmds : List String) (es : List Ev) : ProcessRunner × List Event :=
  let p := ProcessRunner.run_chain ProcessRunner.initial cmds
  let q := drive p.1 es
  (q.1, p.2 ++ q.2)

def startsOf (tr : List Event) : List String :=
  tr.filterMap (fun e => match e with | Event.procStart c => some c | _ => none)

def oksOf (tr : List Event) : Nat :=
  (tr.filter (fun e => match e with | Event.procFinished true _ => true | _ => false)).length

/-- Invariant of the runner along a chain of cmds: with k commands started
and oks successful exits observed so far, the runner is either running the
k-th command, waiting on the settle timer before command k+1, finished
(disconnected, queue cleared), or idle after an empty chain. -/
def ChainInvState (cmds : List String) (s : ProcessRunner) (k oks : Nat) : Prop :=
  (s = ⟨true, cmds.drop k, true, false⟩ ∧ 1 ≤ k ∧ k ≤ cmds.length ∧ oks + 1 = k) ∨
  (s = ⟨false, cmds.drop k, true, true⟩ ∧ k < cmds.length ∧ oks = k) ∨
  (s = ⟨false, [], false, false⟩ ∧ k ≤ oks + 1) ∨
  (s = ⟨false, [], true, false⟩ ∧ k = 0 ∧ cmds = [])

def ChainInv (cmds : List String) (s : ProcessRunner) (tr : List Event) : Prop :=
  ∃ k, k ≤ cmds.length ∧ startsOf tr = cmds.take k ∧ ChainInvState cmds s k (oksOf tr)

/-! ### Step definition table (MainWindow.load_steps) -/

inductive BehaviorId where
  | a9_teth_get_shc_pre
  | a9_teth_restore
  | a9_teth_get_shc_post
  | a9_teth_get_pte
  | a9_teth_boot
  | a10_teth_restore
  | a10_teth_boot
  | a9_unteth_get_shc
  | a9_unteth_restore
  | a10_unteth_restore
deriving DecidableEq

instance : Inhabited BehaviorId := ⟨BehaviorId.a9_teth_get_shc_pre⟩

def load_steps (chip : String) (mode : String) : List (String × BehaviorId) :=
  if mode = "teth" then
    if chip = "A9" then
      [("Get SHC (pre)", BehaviorId.a9_teth_get_shc_pre),
       ("Restore Device", BehaviorId.a9_teth_restore),
       ("Get SHC (post)", BehaviorId.a9_teth_get_shc_post),
       ("Get pteblock", BehaviorId.a9_teth_get_pte),
       ("Boot Device", BehaviorId.a9_teth_boot)]
    else
      [("Restore Device", BehaviorId.a10_teth_restore),
       ("Boot Device", BehaviorId.a10_teth_boot)]
  else
    if chip = "A9" then
      [("Get SHC Block", BehaviorId.a9_unteth_get_shc),
       ("Untethered Restore", BehaviorId.a9_unteth_restore)]
    else
      [("Untethered Restore", BehaviorId.a10_unteth_restore)]

/-! ### Step behaviors (the step_* methods)

Each behavior checks its preconditions (with Python truthiness on the
Optional[str] fields; a Path root_dir is truthy whenever set) and either
fails fast with a blocking warning or produces a command chain plus,
for most steps, a completion callback.  The two boot behaviors assign no
callback and leave any previously stored one in place, exactly as the
source does.  Config.ROOT is the directory containing the script; its
concrete value depends on the installation and no claim inspects it. -/

def Config.ROOT : String := "."
def Config.RAIN : String := Config.ROOT ++ "/turdusra1n"
def Config.MERULA : String := Config.ROOT ++ "/turdus_merula"

inductive StepAction where
  | precondFail
  | chain (cb : Option CbId) (cmds : List String)
deriving DecidableEq

/-- str() of a Path below the project root. -/
def childPath (root n : String) : String := root ++ "/" ++ n

def globSignedSEP (fs : FS) : List FileRec :=
  fs.root.filter (fun f => strEndsWith f.name "signed-SEP.img4")

def globIBoot (fs : FS) : List FileRec :=
  fs.root.filter (fun f => strContains f.name "iBoot" && strEndsWith f.name ".img4")

def globTargetSEP (fs : FS) : List FileRec :=
  fs.root.filter (fun f => strEndsWith f.name "target-SEP.im4p")

def runBehavior : BehaviorId → ProjectState → FS → StepAction
  | BehaviorId.a9_teth_get_shc_pre, ps, _ =>
    if !truthyStr ps.ipsw || ps.root_dir.isNone then StepAction.precondFail
    else
      StepAction.chain (some CbId.shc_pre)
        [Config.RAIN ++ " -D",
         "cd \x27" ++ ps.root_dir.getD "" ++ "\x27 && " ++ Config.MERULA
           ++ " --get-shcblock \x27" ++ ps.ipsw.getD "" ++ "\x27"]
  | BehaviorId.a9_teth_restore, ps, fs =>
    if !truthyStr ps.ipsw || ps.root_dir.isNone then StepAction.precondFail
    else if !rootHas fs "shcblock_pre.bin" then StepAction.precondFail
    else
      StepAction.chain (some CbId.restore_marker)
        [Config.RAIN ++ " -D",
         "cd \x27" ++ ps.root_dir.getD "" ++ "\x27 && " ++ Config.MERULA
           ++ " -o --load-shcblock \x27" ++ childPath (ps.root_dir.getD "") "shcblock_pre.bin"
           ++ "\x27 \x27" ++ ps.ipsw.getD "" ++ "\x27"]
  | BehaviorId.a9_teth_get_shc_post, ps, _ =>
    if ps.root_dir.isNone then StepAction.precondFail
    else
      StepAction.chain (some CbId.shc_post)
        ["cd \x27" ++ ps.root_dir.getD "" ++ "\x27 && " ++ Config.RAIN ++ " -g"]
  | BehaviorId.a9_teth_get_pte, ps, fs =>
    if ps.root_dir.isNone then StepAction.precondFail
    else if !rootHas fs "shcblock_post.bin" then StepAction.precondFail
    else
      match (globSignedSEP fs).head? with
      | none => StepAction.precondFail
      | some sep =>
        StepAction.chain (some CbId.pte)
          ["cd \x27" ++ ps.root_dir.getD "" ++ "\x27 && " ++ Config.RAIN
             ++ " -g -i \x27" ++ childPath (ps.root_dir.getD "") sep.name
             ++ "\x27 -C \x27" ++ childPath (ps.root_dir.getD "") "shcblock_post.bin" ++ "\x27"]
  | BehaviorId.a9_teth_boot, ps, fs =>
    if ps.root_dir.isNone then StepAction.precondFail
    else if !rootHas fs "pteblock.bin" then StepAction.precondFail
    else
      StepAction.chain none
        [Config.RAIN ++ " -TP \x27" ++ childPath (ps.root_dir.getD "") "pteblock.bin" ++ "\x27"]
  | BehaviorId.a10_teth_restore, ps, _ =>
    if !truthyStr ps.ipsw || ps.root_dir.isNone then StepAction.precondFail
    else
      StepAction.chain (some CbId.restore_marker)
        [Config.RAIN ++ " -D",
         "cd \x27" ++ ps.root_dir.getD "" ++ "\x27 && " ++ Config.MERULA
           ++ " -o \x27" ++ ps.ipsw.getD "" ++ "\x27"]
  | BehaviorId.a10_teth_boot, ps, fs =>
    if ps.root_dir.isNone then StepAction.precondFail
    else
      match (globIBoot fs).head?, (globSignedSEP fs).head?, (globTargetSEP fs).head? with
      | some iboot, some sepSigned, some sepTarget =>
        StepAction.chain none
          [Config.RAIN ++ " -t \x27" ++ childPath (ps.root_dir.getD "") iboot.name
             ++ "\x27 -i \x27" ++ childPath (ps.root_dir.getD "") sepSigned.name
             ++ "\x27 -p \x27" ++ childPath (ps.root_dir.getD "") sepTarget.name ++ "\x27"]
      | _, _, _ => StepAction.precondFail
  | BehaviorId.a9_unteth_get_shc, ps, _ =>
    if !truthyStr ps.ipsw || ps.root_dir.isNone then StepAction.precondFail
    else
      StepAction.chain (some CbId.unteth_shc)
        [Config.RAIN ++ " -D",
         "cd \x27" ++ ps.root_dir.getD "" ++ "\x27 && " ++ Config.MERULA
           ++ " --get-shcblock \x27" ++ ps.ipsw.getD "" ++ "\x27"]
  | BehaviorId.a9_unteth_restore, ps, fs =>
    if !truthyStr ps.ipsw || !truthyStr ps.blob || !truthyStr ps.gen || ps.root_dir.isNone then
      StepAction.precondFail
    else if !rootHas fs "shcblock_unteth.bin" then StepAction.precondFail
    else
      StepAction.chain (some CbId.restore_marker)
        [Config.RAIN ++ " -Db " ++ ps.gen.getD "",
         "cd \x27" ++ ps.root_dir.getD "" ++ "\x27 && " ++ Config.MERULA
           ++ " -w --load-shsh \x27" ++ ps.blob.getD ""
           ++ "\x27 --load-shcblock \x27" ++ childPath (ps.root_dir.getD "") "shcblock_unteth.bin"
           ++ "\x27 \x27" ++ ps.ipsw.getD "" ++ "\x27"]
  | BehaviorId.a10_unteth_restore, ps, _ =>
    if !truthyStr ps.ipsw || !truthyStr ps.blob || !truthyStr ps.gen || ps.root_dir.isNone then
      StepAction.precondFail
    else
      StepAction.chain (some CbId.restore_marker)
        [Config.RAIN ++ " -Db " ++ ps.gen.getD "",
         "cd \x27" ++ ps.root_dir.getD "" ++ "\x27 && " ++ Config.MERULA
           ++ " -w --load-shsh \x27" ++ ps.blob.getD ""
           ++ "\x27 \x27" ++ ps.ipsw.getD "" ++ "\x27"]

/-! ### Step manager bookkeeping (class StepManager)

Steps carry their behavior (immutable after load_steps) and their status;
current_step is -1 when no step has been started. -/

def setStatusLoop : List (BehaviorId × Nat) → Nat → Nat → List (BehaviorId × Nat)
  | [], _, _ => []
  | s :: rest, 0, st => (s.1, st) :: rest
  | s :: rest, Nat.succ i, st => s :: setStatusLoop rest i st

def StepManager.start_step (steps : List (BehaviorId × Nat)) (cur : Int) (index : Nat) :
    List (BehaviorId × Nat) × Int :=
  if index < steps.length then
    (setStatusLoop steps index StepStatus.RUNNING, (index : Int))
  else (steps, cur)

def StepManager.complete_step (steps : List (BehaviorId × Nat)) (index : Int) (success : Bool) :
    List (BehaviorId × Nat) :=
  if 0 ≤ index ∧ index.toNat < steps.length then
    setStatusLoop steps index.toNat (if success then StepStatus.SUCCESS else StepStatus.FAILED)
  else steps

/-! ### Orchestrator state and operations (MainWindow) -/

structure AppState where
  ps : ProjectState
  mode : String
  fs : FS
  runner : ProcessRunner
  steps : List (BehaviorId × Nat)
  current_step : Int
  is_executing : Bool
  callback : Option CbId
deriving DecidableEq

/-- execute_step creates the block and image4 working directories
(mkdir exist_ok=True) when a project is open. -/
def mkdirTemps (ps : ProjectState) (fs : FS) : FS :=
  match ps.root_dir with
  | none => fs
  | some _ => { fs with block := some (fs.block.getD []), image4 := some (fs.image4.getD []) }

def execute_step (a : AppState) (index : Nat) : AppState × List Event :=
  if a.steps.length ≤ index then (a, [])
  else
    let bid := ((a.steps.get? index).map Prod.fst).getD default
    let p := StepManager.start_step a.steps a.current_step index
    let a1 : AppState :=
      { a with steps := p.1, current_step := p.2, is_executing := true,
               fs := mkdirTemps a.ps a.fs }
    match runBehavior bid a1.ps a1.fs with
    | StepAction.precondFail =>
      let steps2 := StepManager.complete_step a1.steps a1.current_step false
      ({ a1 with steps := steps2, is_executing := false }, [Event.warn])
    | StepAction.chain cb cmds =>
      let a2 : AppState :=
        match cb with
        | some c => { a1 with callback := some c }
        | none => a1
      let r := ProcessRunner.run_chain a2.runner cmds
      ({ a2 with runner := r.1 }, r.2)

/-- move_temp_files: flatten one working subdirectory into the project root.
Files are moved in enumeration order (a move overwrites a same-named root
file); entries that are not regular files, or whose name starts with a dot,
are skipped and then destroyed by the shutil.rmtree of the directory. -/
def flattenDir (root : List FileRec) (entries : List Entry) : List FileRec :=
  entries.foldl
    (fun acc e =>
      if e.isFile && !strStartsWith e.name "." then
        (acc.filter (fun g => !(g.name == e.name))) ++ [⟨e.name, e.mtime⟩]
      else acc)
    root

def move_temp_files (ps : ProjectState) (fs : FS) : FS :=
  if ps.root_dir.isNone then fs
  else
    let fs1 :=
      match fs.block with
      | none => fs
      | some entries => { fs with root := flattenDir fs.root entries, block := none }
    match fs1.image4 with
    | none => fs1
    | some entries => { fs1 with root := flattenDir fs1.root entries, image4 := none }

/-- on_command_chain_finished: clear the executing flag, flatten the working
directories, consume the stored callback (once) to finalize the artifact,
and record the step outcome.  The result dialog that follows is an external
operator decision and is not part of the state transition. -/
def on_command_chain_finished (a : AppState) (success : Bool) : AppState :=
  let a1 : AppState := { a with is_executing := false, fs := move_temp_files a.ps a.fs }
  if 0 ≤ a1.current_step then
    match a1.callback with
    | some cb =>
      let r := applyCallback cb a1.fs success
      { a1 with fs := r.1,
                steps := StepManager.complete_step a1.steps a1.current_step r.2,
                callback := none }
    | none =>
      { a1 with steps := StepManager.complete_step a1.steps a1.current_step success }
  else a1

/-! ### Progress detection (MainWindow.detect_progress)

Walks the current step list; a step whose marker artifact is present is
upgraded to Success; other statuses are left as they are.  The next-step
flag is the first index whose (post-update) status is Pending, or -1. -/

def detectStepStatus (chip mode : String) (fs : FS) (i : Nat) (st : Nat) : Nat :=
  if mode = "teth" then
    if chip = "A9" then
      if i = 0 ∧ rootHas fs "shcblock_pre.bin" then StepStatus.SUCCESS
      else if i = 1 ∧ rootHas fs "restore_done" then StepStatus.SUCCESS
      else if i = 2 ∧ rootHas fs "shcblock_post.bin" then StepStatus.SUCCESS
      else if i = 3 ∧ rootHas fs "pteblock.bin" then StepStatus.SUCCESS
      else st
    else
      if i = 0 ∧ rootHas fs "restore_done" then StepStatus.SUCCESS else st
  else
    if chip = "A9" then
      if i = 0 ∧ rootHas fs "shcblock_unteth.bin" then StepStatus.SUCCESS
      else if i = 1 ∧ rootHas fs "restore_done" then StepStatus.SUCCESS
      else st
    else
      if i = 0 ∧ rootHas fs "restore_done" then StepStatus.SUCCESS else st

def detectLoop (chip mode : String) (fs : FS) : Nat → List Nat → List Nat
  | _, [] => []
  | i, st :: rest => detectStepStatus chip mode fs i st :: detectLoop chip mode fs (i + 1) rest

def firstPendingIdx : Nat → List Nat → Int
  | _, [] => -1
  | i, st :: rest => if st = StepStatus.PENDING then (i : Int) else firstPendingIdx (i + 1) rest

def detect_progress (ps : ProjectState) (mode : String) (fs : FS) (statuses : List Nat) :
    List Nat × Int :=
  if ps.root_dir.isNone then (statuses, -1)
  else
    let upd := detectLoop ps.chip mode fs 0 statuses
    (upd, firstPendingIdx 0 upd)

/-! ### Generator extraction (MainWindow.extract_generator)

The blob file is represented by its list of lines.  The shell step is
grep -A 1 on the pattern generator: every line containing the substring is
printed together with the following line, with a group separator between
noncontiguous groups.  The Python step searches that output for the first
(leftmost, lazily shortest, not crossing a newline) match of the regular
expression string-element pattern and returns the captured group, falling
back to UNKNOWN when nothing matches or anything raises. -/

def grepFlags : Bool → List String → List (String × Bool)
  | _, [] => []
  | prev, l :: rest =>
    let m := strContains l "generator"
    (l, m || prev) :: grepFlags m rest

def grepCollect : Bool → Bool → List (String × Bool) → List String
  | _, _, [] => []
  | printed, prevKept, (l, keep) :: rest =>
    if keep then
      if printed && !prevKept then "--" :: l :: grepCollect true true rest
      else l :: grepCollect true true rest
    else grepCollect printed false rest

def grepA1 (lines : List String) : List String := grepCollect false false (grepFlags false lines)

def openTag : List Char := "<string>".data
def closeTag : List Char := "</string>".data

/-- Lazy scan for the capture group: consume characters (never a newline)
until the closing literal matches, requiring at least one captured
character. -/
def scanContent (acc : List Char) : List Char → Option (List Char)
  | [] => none
  | c :: cs =>
    if acc ≠ [] ∧ isPrefixCh closeTag (c :: cs) then some acc.reverse
    else if c = '\n' then none
    else scanContent (c :: acc) cs

/-- re.search: try every start position left to right. -/
def searchString : List Char → Option (List Char)
  | [] => none
  | c :: cs =>
    if isPrefixCh openTag (c :: cs) then
      match scanContent [] ((c :: cs).drop openTag.length) with
      | some v => some v
      | none => searchString cs
    else searchString cs

def extract_generator (lines : List String) : String :=
  match searchString (String.intercalate "\n" (grepA1 lines)).data with
  | some cs => String.mk cs
  | none => "UNKNOWN"

/-- Modelled from the spec: the value the spec describes, namely the first
XML string-element value found after the first occurrence of the generator
key in the blob content (used only to compare the code against the spec
wording). -/
def dropToSub (pat : List Char) : List Char → Option (List Char)
  | [] => if isPrefixCh pat [] then some [] else none
  | c :: cs =>
    if isPrefixCh pat (c :: cs) then some ((c :: cs).drop pat.length)
    else dropToSub pat cs

def specGeneratorValue (lines : List String) : String :=
  match dropToSub "generator".data (String.intercalate "\n" lines).data with
  | some rest =>
    match searchString rest with
    | some v => String.mk v
    | none => "UNKNOWN"
  | none => "UNKNOWN"

/-! ### Concrete fixtures for individual claims -/

def psC4 : ProjectState := ⟨some "p", none, none, none, "A9"⟩

def fsC4 : FS := ⟨[⟨"shcblock_pre.bin", 0⟩, ⟨"restore_done", 1⟩], none, none⟩

def fsC5 : FS :=
  ⟨[⟨"shcblock_pre.bin", 0⟩, ⟨"shcblock_post.bin", 1⟩, ⟨"pteblock.bin", 2⟩,
    ⟨"shcblock_unteth.bin", 3⟩], none, none⟩

def xC6 : ProjectState := ⟨some "p", some "", none, none, "A9"⟩

/-- C2 failing input: A9 tethered, step 0 currently Running with its chain's
first process still live (one queued command), step 1's preconditions all
satisfied, and the operator clicks step 2's button. -/
def appC2 : AppState :=
  ⟨⟨some "p", some "f.ipsw", none, none, "A9"⟩, "teth",
   ⟨[⟨"shcblock_pre.bin", 5⟩], none, none⟩,
   ⟨true, ["queued-cmd-of-step0"], true, false⟩,
   [(BehaviorId.a9_teth_get_shc_pre, StepStatus.RUNNING),
    (BehaviorId.a9_teth_restore, StepStatus.PENDING),
    (BehaviorId.a9_teth_get_shc_post, StepStatus.PENDING),
    (BehaviorId.a9_teth_get_pte, StepStatus.PENDING),
    (BehaviorId.a9_teth_boot, StepStatus.PENDING)],
   0, true, none⟩

/-- C7 counterexample input: a chain completes while block/ holds one hidden
regular file and image4/ exists empty; no step is active. -/
def appC7 : AppState :=
  ⟨⟨some "p", none, none, none, "A9"⟩, "teth",
   ⟨[], some [⟨".cfg", true, 0⟩], some []⟩,
   ProcessRunner.initial, [], -1, false, none⟩

/-- C8 witness input: A9 tethered pipeline, fresh statuses, IPSW selected,
but shcblock_pre.bin absent; step 2 (index 1) is invoked. -/
def appC8 : AppState :=
  ⟨⟨some "p", some "f.ipsw", none, none, "A9"⟩, "teth",
   ⟨[⟨"other.bin", 1⟩], none, none⟩,
   ProcessRunner.initial,
   [(BehaviorId.a9_teth_get_shc_pre, StepStatus.PENDING),
    (BehaviorId.a9_teth_restore, StepStatus.PENDING),
    (BehaviorId.a9_teth_get_shc_post, StepStatus.PENDING),
    (BehaviorId.a9_teth_get_pte, StepStatus.PENDING),
    (BehaviorId.a9_teth_boot, StepStatus.PENDING)],
   -1, false, none⟩

/-! ### Theorems -/

theorem setStatusLoop_length (steps : List (BehaviorId × Nat)) (i st : Nat) :
    (setStatusLoop steps i st).length = steps.length := by
  induction steps generalizing i with
  | nil => rfl
  | cons s rest ih => cases i <;> simp [setStatusLoop, ih]

theorem get?_setStatusLoop_self (steps : List (BehaviorId × Nat)) (i st : Nat) :
    (setStatusLoop steps i st)[i]? = (steps[i]?).map (fun p => (p.1, st)) := by
  induction steps generalizing i with
  | nil => cases i <;> rfl
  | cons s rest ih =>
    cases i with
    | zero => simp [setStatusLoop]
    | succ n => simpa [setStatusLoop] using ih n

/-- C3: for every (chip, mode) pair the step table built by load_steps has
exactly the pipeline of the spec table: A9-tethered is the five steps
get-shc-pre, restore, get-shc-post, get-pteblock, boot in that order;
A10-tethered is restore then boot; A9-untethered is get-shc then restore;
A10-untethered is the single restore step. -/
theorem step_table_counts_and_order :
    load_steps "A9" "teth" =
      [("Get SHC (pre)", BehaviorId.a9_teth_get_shc_pre),
       ("Restore Device", BehaviorId.a9_teth_restore),
       ("Get SHC (post)", BehaviorId.a9_teth_get_shc_post),
       ("Get pteblock", BehaviorId.a9_teth_get_pte),
       ("Boot Device", BehaviorId.a9_teth_boot)] ∧
    (load_steps "A9" "teth").length = 5 ∧
    load_steps "A10" "teth" =
      [("Restore Device", BehaviorId.a10_teth_restore),
       ("Boot Device", BehaviorId.a10_teth_boot)] ∧
    (load_steps "A10" "teth").length = 2 ∧
    load_steps "A9" "unteth" =
      [("Get SHC Block", BehaviorId.a9_unteth_get_shc),
       ("Untethered Restore", BehaviorId.a9_unteth_restore)] ∧
    (load_steps "A9" "unteth").length = 2 ∧
    load_steps "A10" "unteth" =
      [("Untethered Restore", BehaviorId.a10_unteth_restore)] ∧
    (load_steps "A10" "unteth").length = 1 := by
  refine ⟨by decide, by decide, by decide, by decide, by decide, by decide, by decide, by decide⟩

/-- C4 counterexample: detect_progress is not a function of file presence
alone.  Two calls over the same project directory (empty) with different
in-memory statuses return different results: a stale Failed status on step 3
survives, so the derived statuses also depend on in-memory history. -/
theorem detect_progress_history_dependent :
    detect_progress psC4 "teth" ⟨[], none, none⟩
        [StepStatus.PENDING, StepStatus.PENDING, StepStatus.FAILED, StepStatus.PENDING,
         StepStatus.PENDING] ≠
      detect_progress psC4 "teth" ⟨[], none, none⟩
        [StepStatus.PENDING, StepStatus.PENDING, StepStatus.PENDING, StepStatus.PENDING,
         StepStatus.PENDING] := by decide

/-- C4 amended: progress detection upgrades steps to Success from marker
presence and never downgrades an existing status; starting from freshly
reset all-Pending statuses (the state set_steps leaves), a project directory
containing exactly shcblock_pre.bin and restore_done under A9 tethered marks
steps 1 and 2 Success, leaves steps 3-5 Pending, and flags step 3 (index 2)
as next. -/
theorem detect_progress_resume_scenario :
    detect_progress psC4 "teth" fsC4 (List.replicate 5 StepStatus.PENDING) =
      ([StepStatus.SUCCESS, StepStatus.SUCCESS, StepStatus.PENDING, StepStatus.PENDING,
        StepStatus.PENDING], 2) := by decide

/-- C5: each artifact resolver is idempotent: when the canonical target file
already exists in the project root, the chain-completion callback of a
successful chain leaves the filesystem untouched and reports success. -/
theorem artifact_resolver_idempotent (fs : FS) :
    (rootHas fs "shcblock_pre.bin" = true → on_complete_shc_pre fs true = (fs, true)) ∧
    (rootHas fs "shcblock_post.bin" = true → on_complete_shc_post fs true = (fs, true)) ∧
    (rootHas fs "pteblock.bin" = true → on_complete_pte fs true = (fs, true)) ∧
    (rootHas fs "shcblock_unteth.bin" = true → on_complete_unteth_shc fs true = (fs, true)) := by
  refine ⟨fun h => ?_, fun h => ?_, fun h => ?_, fun h => ?_⟩ <;>
    simp [on_complete_shc_pre, on_complete_shc_post, on_complete_pte, on_complete_unteth_shc, h]

theorem artifact_resolver_idempotent_witness :
    rootHas fsC5 "shcblock_pre.bin" = true ∧ on_complete_shc_pre fsC5 true = (fsC5, true) ∧
    rootHas fsC5 "pteblock.bin" = true ∧ on_complete_pte fsC5 true = (fsC5, true) :=
  ⟨by decide, (artifact_resolver_idempotent fsC5).1 (by decide),
   by decide, (artifact_resolver_idempotent fsC5).2.2.1 (by decide)⟩

/-- C6 counterexample: ProjectState persistence does not round-trip every
state.  The save path applies Python truthiness, so an empty-string ipsw is
persisted as null and loads back as None, not as the empty string. -/
theorem projectstate_roundtrip_empty_string_fails :
    ProjectState.load "p" (ProjectState.save xC6) ≠ xC6 := by decide

/-- C6 amended: for every ProjectState with root_dir set whose ipsw and blob
are not the (falsy) empty string, saving and then loading from the same
directory reproduces ipsw, blob, gen and chip exactly, including None for
unset optional fields. -/
theorem projectstate_roundtrip_amended (x : ProjectState) (r : String)
    (hr : x.root_dir = some r) (hi : x.ipsw ≠ some "") (hb : x.blob ≠ some "") :
    ProjectState.load r x.save = x := by
  obtain ⟨rd, ip, bl, gn, ch⟩ := x
  simp only at hr hi hb
  subst hr
  rcases ip with _ | s
  · rcases bl with _ | t
    · simp [ProjectState.save, ProjectState.load, truthyStr]
    · have ht : (t == "") = false := by
        simpa using fun h => hb (by simp [h])
      simp [ProjectState.save, ProjectState.load, truthyStr, ht]
  · have hs : (s == "") = false := by
      simpa using fun h => hi (by simp [h])
    rcases bl with _ | t
    · simp [ProjectState.save, ProjectState.load, truthyStr, hs]
    · have ht : (t == "") = false := by
        simpa using fun h => hb (by simp [h])
      simp [ProjectState.save, ProjectState.load, truthyStr, hs, ht]

theorem projectstate_roundtrip_amended_witness :
    (⟨some "p", some "a.ipsw", none, none, "A10"⟩ : ProjectState).root_dir = some "p" ∧
    ProjectState.load "p" (ProjectState.save ⟨some "p", some "a.ipsw", none, none, "A10"⟩) =
      ⟨some "p", some "a.ipsw", none, none, "A10"⟩ :=
  ⟨by decide,
   projectstate_roundtrip_amended ⟨some "p", some "a.ipsw", none, none, "A10"⟩ "p"
     (by decide) (by decide) (by decide)⟩

/-- C10: run_chain with an empty command list starts no process and emits no
chain event, but leaves the chain handler connected to process_finished, so
the very next single run command has its exit reported as a chain
completion. -/
theorem run_chain_empty_latent_connection (cmd : String) (code : Int) :
    (ProcessRunner.run_chain ProcessRunner.initial []).2 = [] ∧
    (ProcessRunner.run_chain ProcessRunner.initial []).1 = ⟨false, [], true, false⟩ ∧
    (ProcessRunner.run (ProcessRunner.run_chain ProcessRunner.initial []).1 cmd).2.2 = true ∧
    (ProcessRunner.run (ProcessRunner.run_chain ProcessRunner.initial []).1 cmd).2.1 =
      [Event.procStart cmd] ∧
    (onProcessExit
        (ProcessRunner.run (ProcessRunner.run_chain ProcessRunner.initial []).1 cmd).1 code).2 =
      [Event.procFinished (decide (code = 0)) code, Event.chainFinished (decide (code = 0))] := by
  refine ⟨rfl, rfl, rfl, rfl, ?_⟩
  by_cases h : code = 0 <;>
    simp [ProcessRunner.run_chain, ProcessRunner.run, ProcessRunner.initial, onProcessExit, h]

/-- C2 (evaluation at the failing input): execute_step performs no
is_executing check.  Invoked on step index 1 while step 0 is Running and its
chain's process is still live, it is not rejected: step 1 is also marked
Running (two steps Running at once, current_step moves to 1) and the step
behavior runs, replacing the queued chain, while ProcessRunner.run's guard
means no second OS process is started (no procStart event, runner still
running the old process). -/
theorem execute_step_concurrent_not_rejected :
    (execute_step appC2 1).2 = [] ∧
    (execute_step appC2 1).1.steps.get? 0 =
      some (BehaviorId.a9_teth_get_shc_pre, StepStatus.RUNNING) ∧
    (execute_step appC2 1).1.steps.get? 1 =
      some (BehaviorId.a9_teth_restore, StepStatus.RUNNING) ∧
    (execute_step appC2 1).1.current_step = 1 ∧
    (execute_step appC2 1).1.runner.is_running = true ∧
    (execute_step appC2 1).1.runner.command_queue ≠ appC2.runner.command_queue ∧
    (execute_step appC2 1).1.callback = some CbId.restore_marker := by decide

theorem moveRoot_block (fs : FS) (a b : String) : (moveRoot fs a b).block = fs.block := by
  unfold moveRoot; split <;> rfl

theorem moveRoot_image4 (fs : FS) (a b : String) : (moveRoot fs a b).image4 = fs.image4 := by
  unfold moveRoot; split <;> rfl

theorem touchFile_block (fs : FS) (n : String) : (touchFile fs n).block = fs.block := by
  unfold touchFile; split <;> rfl

theorem touchFile_image4 (fs : FS) (n : String) : (touchFile fs n).image4 = fs.image4 := by
  unfold touchFile; split <;> rfl

theorem applyCallback_block (cb : CbId) (fs : FS) (s : Bool) :
    ((applyCallback cb fs s).1).block = fs.block ∧
    ((applyCallback cb fs s).1).image4 = fs.image4 := by
  cases cb <;>
    simp only [applyCallback, on_complete_shc_pre, on_complete_restore_marker,
      on_complete_shc_post, on_complete_pte, on_complete_unteth_shc] <;>
    split <;>
    first
    | exact ⟨touchFile_block _ _, touchFile_image4 _ _⟩
    | (try split) <;> (try split) <;>
        simp [moveRoot_block, moveRoot_image4]

def hasName (l : List FileRec) (n : String) : Bool := l.any (fun f => f.name == n)

theorem hasName_flattenStep_mono (acc : List FileRec) (e : Entry) (n : String)
    (h : hasName acc n = true) :
    hasName
      (if e.isFile && !strStartsWith e.name "." then
        (acc.filter (fun g => !(g.name == e.name))) ++ [⟨e.name, e.mtime⟩]
      else acc) n = true := by
  split
  · by_cases hn : n = e.name
    · subst hn
      simp [hasName]
    · obtain ⟨f, hf, hfn⟩ := List.any_eq_true.mp h
      have hfn' : f.name = n := by simpa using hfn
      refine List.any_eq_true.mpr ⟨f, ?_, by simpa using hfn'⟩
      refine List.mem_append_left _ (List.mem_filter.mpr ⟨hf, ?_⟩)
      simp [hfn', hn]
  · exact h

theorem hasName_flattenDir_mono (entries : List Entry) (root : List FileRec) (n : String)
    (h : hasName root n = true) : hasName (flattenDir root entries) n = true := by
  induction entries generalizing root with
  | nil => exact h
  | cons e rest ih =>
    simp only [flattenDir, List.foldl_cons]
    exact ih _ (hasName_flattenStep_mono root e n h)

theorem hasName_flattenDir_of_mem (entries : List Entry) (root : List FileRec) (e : Entry)
    (he : e ∈ entries) (hf : e.isFile = true) (hd : strStartsWith e.name "." = false) :
    hasName (flattenDir root entries) e.name = true := by
  induction entries generalizing root with
  | nil => cases he
  | cons x rest ih =>
    simp only [flattenDir, List.foldl_cons]
    rcases List.mem_cons.mp he with rfl | hmem
    · refine hasName_flattenDir_mono rest _ _ ?_
      simp [hf, hd, hasName]
    · exact ih _ hmem

/-- C7 counterexample: a hidden regular file inside block/ is not relocated
to the project root by chain completion; the subdirectory sweep skips
dot-names and shutil.rmtree then destroys them, so after completion the file
exists nowhere. -/
theorem flatten_hidden_file_deleted :
    (on_command_chain_finished appC7 true).fs = ⟨[], none, none⟩ ∧
    rootHas (on_command_chain_finished appC7 true).fs ".cfg" = false := by decide

/-- C7 amended: after every chain completion (success or failure, with a
project open) the block and image4 subdirectories no longer exist, and every
regular, non-hidden (name not starting with a dot) file that was in either
subdirectory is present in the project root; hidden files and non-file
entries are deleted together with the subdirectories. -/
theorem flatten_moves_visible_files :
    (∀ (ps : ProjectState) (fs : FS), ps.root_dir.isSome = true →
        (move_temp_files ps fs).block = none ∧ (move_temp_files ps fs).image4 = none) ∧
    (∀ (ps : ProjectState) (fs : FS) (e : Entry), ps.root_dir.isSome = true →
        e ∈ fs.block.getD [] → e.isFile = true → strStartsWith e.name "." = false →
        rootHas (move_temp_files ps fs) e.name = true) ∧
    (∀ (ps : ProjectState) (fs : FS) (e : Entry), ps.root_dir.isSome = true →
        e ∈ fs.image4.getD [] → e.isFile = true → strStartsWith e.name "." = false →
        rootHas (move_temp_files ps fs) e.name = true) ∧
    (∀ (a : AppState) (success : Bool), a.ps.root_dir.isSome = true →
        (on_command_chain_finished a success).fs.block = none ∧
        (on_command_chain_finished a success).fs.image4 = none) := by
  have hmain : ∀ (ps : ProjectState) (fs : FS), ps.root_dir.isSome = true →
      (move_temp_files ps fs).block = none ∧ (move_temp_files ps fs).image4 = none := by
    intro ps fs h
    obtain ⟨r, hr⟩ := Option.isSome_iff_exists.mp h
    rcases hb : fs.block with _ | bs <;> rcases hi : fs.image4 with _ | is <;>
      simp [move_temp_files, hr, hb, hi]
  refine ⟨hmain, ?_, ?_, ?_⟩
  · intro ps fs e h he hf hd
    obtain ⟨r, hr⟩ := Option.isSome_iff_exists.mp h
    rcases hb : fs.block with _ | bs
    · simp [hb] at he
    · simp only [hb, Option.getD_some] at he
      rcases hi : fs.image4 with _ | is <;>
        simp only [move_temp_files, hr, hb, hi, Option.isNone_some, Bool.false_eq_true,
          if_false]
      · show hasName (flattenDir fs.root bs) e.name = true
        exact hasName_flattenDir_of_mem bs fs.root e he hf hd
      · show hasName (flattenDir (flattenDir fs.root bs) is) e.name = true
        exact hasName_flattenDir_mono is _ _ (hasName_flattenDir_of_mem bs fs.root e he hf hd)
  · intro ps fs e h he hf hd
    obtain ⟨r, hr⟩ := Option.isSome_iff_exists.mp h
    rcases hi : fs.image4 with _ | is
    · simp [hi] at he
    · simp only [hi, Option.getD_some] at he
      rcases hb : fs.block with _ | bs <;>
        simp only [move_temp_files, hr, hb, hi, Option.isNone_some, Bool.false_eq_true,
          if_false]
      · show hasName (flattenDir fs.root is) e.name = true
        exact hasName_flattenDir_of_mem is fs.root e he hf hd
      · show hasName (flattenDir (flattenDir fs.root bs) is) e.name = true
        exact hasName_flattenDir_of_mem is _ e he hf hd
  · intro a success h
    have hm := hmain a.ps a.fs h
    unfold on_command_chain_finished
    cases hcb : a.callback with
    | none =>
      simp only [hcb]
      split <;> exact ⟨hm.1, hm.2⟩
    | some cb =>
      obtain ⟨hb1, hb2⟩ := applyCallback_block cb (move_temp_files a.ps a.fs) success
      simp only [hcb]
      split
      · exact ⟨hb1.trans hm.1, hb2.trans hm.2⟩
      · exact ⟨hm.1, hm.2⟩

theorem flatten_moves_visible_files_witness :
    rootHas (move_temp_files ⟨some "p", none, none, none, "A9"⟩
        ⟨[], some [⟨"x.bin", true, 3⟩], some []⟩) "x.bin" = true ∧
    (move_temp_files ⟨some "p", none, none, none, "A9"⟩
        ⟨[], some [⟨"x.bin", true, 3⟩], some []⟩).block = none :=
  ⟨flatten_moves_visible_files.2.1 ⟨some "p", none, none, none, "A9"⟩
      ⟨[], some [⟨"x.bin", true, 3⟩], some []⟩ ⟨"x.bin", true, 3⟩
      (by decide) (by decide) (by decide) (by decide),
   (flatten_moves_visible_files.1 ⟨some "p", none, none, none, "A9"⟩
      ⟨[], some [⟨"x.bin", true, 3⟩], some []⟩ (by decide)).1⟩

/-- C8: every step behavior fails fast on a missing precondition: whenever a
required ProjectState field is unset (Python-falsy) or a required
precondition file is absent, the behavior returns the fail action (the
blocking warning path); and execute_step on a behavior that fails its
precondition check emits only the blocking notice, marks that step Failed,
leaves the process runner untouched (no command started) and clears the
executing flag. -/
theorem precondition_fail_fast :
    (∀ (ps : ProjectState) (fs : FS),
        truthyStr ps.ipsw = false ∨ ps.root_dir = none →
        runBehavior BehaviorId.a9_teth_get_shc_pre ps fs = StepAction.precondFail) ∧
    (∀ (ps : ProjectState) (fs : FS),
        truthyStr ps.ipsw = false ∨ ps.root_dir = none ∨
            rootHas fs "shcblock_pre.bin" = false →
        runBehavior BehaviorId.a9_teth_restore ps fs = StepAction.precondFail) ∧
    (∀ (ps : ProjectState) (fs : FS),
        ps.root_dir = none →
        runBehavior BehaviorId.a9_teth_get_shc_post ps fs = StepAction.precondFail) ∧
    (∀ (ps : ProjectState) (fs : FS),
        ps.root_dir = none ∨ rootHas fs "shcblock_post.bin" = false ∨ globSignedSEP fs = [] →
        runBehavior BehaviorId.a9_teth_get_pte ps fs = StepAction.precondFail) ∧
    (∀ (ps : ProjectState) (fs : FS),
        ps.root_dir = none ∨ rootHas fs "pteblock.bin" = false →
        runBehavior BehaviorId.a9_teth_boot ps fs = StepAction.precondFail) ∧
    (∀ (ps : ProjectState) (fs : FS),
        truthyStr ps.ipsw = false ∨ ps.root_dir = none →
        runBehavior BehaviorId.a10_teth_restore ps fs = StepAction.precondFail) ∧
    (∀ (ps : ProjectState) (fs : FS),
        ps.root_dir = none ∨ globIBoot fs = [] ∨ globSignedSEP fs = [] ∨
            globTargetSEP fs = [] →
        runBehavior BehaviorId.a10_teth_boot ps fs = StepAction.precondFail) ∧
    (∀ (ps : ProjectState) (fs : FS),
        truthyStr ps.ipsw = false ∨ ps.root_dir = none →
        runBehavior BehaviorId.a9_unteth_get_shc ps fs = StepAction.precondFail) ∧
    (∀ (ps : ProjectState) (fs : FS),
        truthyStr ps.ipsw = false ∨ truthyStr ps.blob = false ∨ truthyStr ps.gen = false ∨
            ps.root_dir = none ∨ rootHas fs "shcblock_unteth.bin" = false →
        runBehavior BehaviorId.a9_unteth_restore ps fs = StepAction.precondFail) ∧
    (∀ (ps : ProjectState) (fs : FS),
        truthyStr ps.ipsw = false ∨ truthyStr ps.blob = false ∨ truthyStr ps.gen = false ∨
            ps.root_dir = none →
        runBehavior BehaviorId.a10_unteth_restore ps fs = StepAction.precondFail) ∧
    (∀ (a : AppState) (index : Nat),
        index < a.steps.length →
        runBehavior (((a.steps.get? index).map Prod.fst).getD default) a.ps
            (mkdirTemps a.ps a.fs) = StepAction.precondFail →
        (execute_step a index).2 = [Event.warn] ∧
        ((execute_step a index).1.steps.get? index).map Prod.snd = some StepStatus.FAILED ∧
        (execute_step a index).1.runner = a.runner ∧
        (execute_step a index).1.is_executing = false) := by
  refine ⟨?_, ?_, ?_, ?_, ?_, ?_, ?_, ?_, ?_, ?_, ?_⟩
  · intro ps fs h
    rcases h with h | h <;> simp [runBehavior, h]
  · intro ps fs h
    rcases h with h | h | h <;> simp [runBehavior, h]
  · intro ps fs h
    simp [runBehavior, h]
  · intro ps fs h
    rcases h with h | h | h <;> simp [runBehavior, h]
  · intro ps fs h
    rcases h with h | h <;> simp [runBehavior, h]
  · intro ps fs h
    rcases h with h | h <;> simp [runBehavior, h]
  · intro ps fs h
    cases h1 : (globIBoot fs).head? <;> cases h2 : (globSignedSEP fs).head? <;>
      cases h3 : (globTargetSEP fs).head? <;>
      rcases h with h | h | h | h <;> simp_all [runBehavior]
  · intro ps fs h
    rcases h with h | h <;> simp [runBehavior, h]
  · intro ps fs h
    rcases h with h | h | h | h | h <;> simp [runBehavior, h]
  · intro ps fs h
    rcases h with h | h | h | h <;> simp [runBehavior, h]
  · intro a index hlen hfail
    have hlen' : ¬ (a.steps.length ≤ index) := Nat.not_le.mpr hlen
    obtain ⟨v, hv⟩ : ∃ v, a.steps[index]? = some v :=
      ⟨_, List.getElem?_eq_getElem hlen⟩
    unfold execute_step
    rw [if_neg hlen']
    simp only [hfail]
    have hc : (0 : Int) ≤ (index : Int) ∧
        ((index : Int)).toNat < (setStatusLoop a.steps index StepStatus.RUNNING).length := by
      refine ⟨Int.natCast_nonneg index, ?_⟩
      simpa [setStatusLoop_length] using hlen
    simp only [StepManager.start_step, if_pos hlen, StepManager.complete_step, if_pos hc]
    simp [get?_setStatusLoop_self, hv]

theorem precondition_fail_fast_witness :
    rootHas appC8.fs "shcblock_pre.bin" = false ∧
    runBehavior BehaviorId.a9_teth_restore appC8.ps appC8.fs = StepAction.precondFail ∧
    (execute_step appC8 1).2 = [Event.warn] ∧
    ((execute_step appC8 1).1.steps.get? 1).map Prod.snd = some StepStatus.FAILED ∧
    (execute_step appC8 1).1.runner = appC8.runner ∧
    (execute_step appC8 1).1.is_executing = false :=
  ⟨by decide,
   precondition_fail_fast.2.1 appC8.ps appC8.fs (Or.inr (Or.inr (by decide))),
   (precondition_fail_fast.2.2.2.2.2.2.2.2.2.2 appC8 1 (by decide) (by decide)).1,
   (precondition_fail_fast.2.2.2.2.2.2.2.2.2.2 appC8 1 (by decide) (by decide)).2.1,
   (precondition_fail_fast.2.2.2.2.2.2.2.2.2.2 appC8 1 (by decide) (by decide)).2.2.1,
   (precondition_fail_fast.2.2.2.2.2.2.2.2.2.2 appC8 1 (by decide) (by decide)).2.2.2⟩

/-- C9 counterexample: the extraction heuristic does not return the first
string-element value following the generator key.  When a string element
precedes the key on the same line, grep keeps the whole line and the regex
finds that earlier element first, so the code returns AAA while the value
following the key is BBB. -/
theorem extract_generator_not_following_key :
    extract_generator ["<string>AAA</string><key>generator</key>", "<string>BBB</string>"] =
      "AAA" ∧
    specGeneratorValue ["<string>AAA</string><key>generator</key>", "<string>BBB</string>"] =
      "BBB" ∧
    ("AAA" : String) ≠ "BBB" := by decide

theorem grepFlags_all_false (lines : List String)
    (h : ∀ l ∈ lines, strContains l "generator" = false) :
    grepFlags false lines = lines.map (fun l => (l, false)) := by
  induction lines with
  | nil => rfl
  | cons l rest ih =>
    have hl : strContains l "generator" = false := h l (List.mem_cons_self l rest)
    simp only [grepFlags, hl, List.map_cons, Bool.false_or]
    rw [ih (fun x hx => h x (List.mem_cons_of_mem l hx))]

theorem grepCollect_all_false (lines : List String) (p q : Bool) :
    grepCollect p q (lines.map (fun l => (l, false))) = [] := by
  induction lines generalizing p q with
  | nil => rfl
  | cons l rest ih => simpa [grepCollect] using ih p false

/-- C9 amended: the extraction returns the first string-element value inside
the grep-filtered region (the lines containing the substring generator, each
together with its following line); in particular a blob whose generator key
line is followed by the string element 0x1111222233334444 yields that value,
and a blob none of whose lines contain the substring generator (including an
unreadable or empty file) yields UNKNOWN. -/
theorem extract_generator_amended :
    extract_generator ["<key>generator</key>", "<string>0x1111222233334444</string>"] =
      "0x1111222233334444" ∧
    ∀ lines : List String, (∀ l ∈ lines, strContains l "generator" = false) →
      extract_generator lines = "UNKNOWN" := by
  refine ⟨by decide, ?_⟩
  intro lines h
  unfold extract_generator grepA1
  rw [grepFlags_all_false lines h, grepCollect_all_false]
  rfl

theorem extract_generator_amended_witness :
    (∀ l ∈ ["hello", "world"], strContains l "generator" = false) ∧
    extract_generator ["hello", "world"] = "UNKNOWN" :=
  ⟨by decide, extract_generator_amended.2 ["hello", "world"] (by decide)⟩


theorem startsOf_append (a b : List Event) : startsOf (a ++ b) = startsOf a ++ startsOf b := by
  simp [startsOf]

theorem oksOf_append (a b : List Event) : oksOf (a ++ b) = oksOf a + oksOf b := by
  simp [oksOf]

theorem onProcessExit_not_running (q : List String) (conn tp : Bool) (code : Int) :
    onProcessExit ⟨false, q, conn, tp⟩ code = (⟨false, q, conn, tp⟩, []) := by
  simp [onProcessExit]

theorem onProcessExit_fail (q : List String) (tp : Bool) (code : Int) (hc : ¬ code = 0) :
    onProcessExit ⟨true, q, true, tp⟩ code =
      (⟨false, [], false, tp⟩, [Event.procFinished false code, Event.chainFinished false]) := by
  simp [onProcessExit, hc]

theorem onProcessExit_ok_empty (tp : Bool) :
    onProcessExit ⟨true, [], true, tp⟩ 0 =
      (⟨false, [], false, tp⟩, [Event.procFinished true 0, Event.chainFinished true]) := by
  simp [onProcessExit]

theorem onProcessExit_ok_more (c : String) (q : List String) (tp : Bool) :
    onProcessExit ⟨true, c :: q, true, tp⟩ 0 =
      (⟨false, c :: q, true, true⟩, [Event.procFinished true 0]) := by
  simp [onProcessExit]

theorem onTimerFire_not_pending (r : Bool) (q : List String) (conn : Bool) :
    onTimerFire ⟨r, q, conn, false⟩ = (⟨r, q, conn, false⟩, []) := by
  simp [onTimerFire]

theorem onTimerFire_fire (conn : Bool) (c : String) (rest : List String) :
    onTimerFire ⟨false, c :: rest, conn, true⟩ =
      (⟨true, rest, conn, false⟩, [Event.procStart c]) := by
  simp [onTimerFire, ProcessRunner.run]

theorem chainInv_stepEv (cmds : List String) (s : ProcessRunner) (tr : List Event) (e : Ev)
    (h : ChainInv cmds s tr) :
    ChainInv cmds (stepEv s e).1 (tr ++ (stepEv s e).2) := by
  obtain ⟨k, hklen, htr, hst⟩ := h
  rcases hst with ⟨hs, hk1, hk2, hoks⟩ | ⟨hs, hk, hoks⟩ | ⟨hs, hk⟩ | ⟨hs, hk0, hc⟩
  · subst hs
    cases e with
    | timer =>
      simp only [stepEv]
      rw [onTimerFire_not_pending, List.append_nil]
      exact ⟨k, hklen, htr, Or.inl ⟨rfl, hk1, hk2, hoks⟩⟩
    | exit code =>
      by_cases hcode : code = 0
      · subst hcode
        rcases hq : cmds.drop k with _ | ⟨c, rest⟩
        · simp only [stepEv]
          rw [onProcessExit_ok_empty]
          refine ⟨k, hklen, ?_, ?_⟩
          · have h2 : startsOf [Event.procFinished true 0, Event.chainFinished true] = [] := by
              simp [startsOf]
            rw [startsOf_append, h2, List.append_nil]
            exact htr
          · have h3 : oksOf (tr ++ [Event.procFinished true 0, Event.chainFinished true]) =
                oksOf tr + 1 := by
              rw [oksOf_append]; simp [oksOf]
            rw [h3]
            exact Or.inr (Or.inr (Or.inl ⟨rfl, by omega⟩))
        · simp only [stepEv]
          rw [onProcessExit_ok_more]
          refine ⟨k, hklen, ?_, ?_⟩
          · have h2 : startsOf [Event.procFinished true 0] = [] := by simp [startsOf]
            rw [startsOf_append, h2, List.append_nil]
            exact htr
          · have h3 : oksOf (tr ++ [Event.procFinished true 0]) = oksOf tr + 1 := by
              rw [oksOf_append]; simp [oksOf]
            rw [h3]
            refine Or.inr (Or.inl ⟨by rw [hq], ?_, by omega⟩)
            have hne : cmds.drop k ≠ [] := by rw [hq]; simp
            by_contra hlt
            exact hne (List.drop_eq_nil_of_le (Nat.le_of_not_lt hlt))
      · simp only [stepEv]
        rw [onProcessExit_fail _ _ _ hcode]
        refine ⟨k, hklen, ?_, ?_⟩
        · have h2 : startsOf [Event.procFinished false code, Event.chainFinished false] = [] := by
            simp [startsOf]
          rw [startsOf_append, h2, List.append_nil]
          exact htr
        · have h3 : oksOf (tr ++ [Event.procFinished false code, Event.chainFinished false]) =
              oksOf tr := by
            rw [oksOf_append]; simp [oksOf]
          rw [h3]
          exact Or.inr (Or.inr (Or.inl ⟨rfl, by omega⟩))
  · subst hs
    cases e with
    | exit code =>
      simp only [stepEv]
      rw [onProcessExit_not_running, List.append_nil]
      exact ⟨k, hklen, htr, Or.inr (Or.inl ⟨rfl, hk, hoks⟩)⟩
    | timer =>
      have hdrop := List.drop_eq_getElem_cons hk
      rw [hdrop]
      simp only [stepEv]
      rw [onTimerFire_fire]
      refine ⟨k + 1, hk, ?_, ?_⟩
      · have h2 : startsOf [Event.procStart cmds[k]] = [cmds[k]] := by simp [startsOf]
        rw [startsOf_append, h2, htr]
        exact List.take_concat_get' cmds k hk
      · have h3 : oksOf (tr ++ [Event.procStart cmds[k]]) = oksOf tr := by
          rw [oksOf_append]; simp [oksOf]
        rw [h3]
        exact Or.inl ⟨rfl, by omega, hk, by omega⟩
  · subst hs
    cases e with
    | exit code =>
      simp only [stepEv]
      rw [onProcessExit_not_running, List.append_nil]
      exact ⟨k, hklen, htr, Or.inr (Or.inr (Or.inl ⟨rfl, hk⟩))⟩
    | timer =>
      simp only [stepEv]
      rw [onTimerFire_not_pending, List.append_nil]
      exact ⟨k, hklen, htr, Or.inr (Or.inr (Or.inl ⟨rfl, hk⟩))⟩
  · subst hs
    cases e with
    | exit code =>
      simp only [stepEv]
      rw [onProcessExit_not_running, List.append_nil]
      exact ⟨k, hklen, htr, Or.inr (Or.inr (Or.inr ⟨rfl, hk0, hc⟩))⟩
    | timer =>
      simp only [stepEv]
      rw [onTimerFire_not_pending, List.append_nil]
      exact ⟨k, hklen, htr, Or.inr (Or.inr (Or.inr ⟨rfl, hk0, hc⟩))⟩

theorem chainInv_drive (cmds : List String) (s : ProcessRunner) (tr : List Event)
    (es : List Ev) (h : ChainInv cmds s tr) :
    ChainInv cmds (drive s es).1 (tr ++ (drive s es).2) := by
  induction es generalizing s tr with
  | nil => simpa [drive] using h
  | cons e rest ih =>
    have h1 := chainInv_stepEv cmds s tr e h
    have h2 := ih (stepEv s e).1 (tr ++ (stepEv s e).2) h1
    simpa [drive, List.append_assoc] using h2

theorem chainInv_start (cmds : List String) :
    ChainInv cmds (ProcessRunner.run_chain ProcessRunner.initial cmds).1
      (ProcessRunner.run_chain ProcessRunner.initial cmds).2 := by
  cases cmds with
  | nil =>
    exact ⟨0, Nat.zero_le _, rfl, Or.inr (Or.inr (Or.inr ⟨rfl, rfl, rfl⟩))⟩
  | cons c rest =>
    refine ⟨1, ?_, ?_, Or.inl ⟨?_, le_refl 1, ?_, ?_⟩⟩
    · simp
    · simp [ProcessRunner.run_chain, ProcessRunner.run, ProcessRunner.initial, startsOf]
    · simp [ProcessRunner.run_chain, ProcessRunner.run, ProcessRunner.initial]
    · simp
    · simp [ProcessRunner.run_chain, ProcessRunner.run, ProcessRunner.initial, oksOf]

theorem drive_dead (es : List Ev) :
    drive ⟨false, [], false, false⟩ es = (⟨false, [], false, false⟩, []) := by
  induction es with
  | nil => rfl
  | cons e rest ih =>
    cases e <;> simp [drive, stepEv, onProcessExit, onTimerFire, ih]

/-- C1: within a chain, command N+1 starts only after command N's exit is
observed with code 0 (the number of commands started never exceeds the
number of successful exits plus one, and the started commands are always a
prefix of the chain in order, for every possible event sequence); in
particular, for a 2-command chain whose first command exits nonzero, the
second command is never started, command_chain_finished(False) is emitted,
and the queued remainder is discarded, whatever happens afterwards. -/
theorem chain_gating_and_failure_abort :
    (∀ (c1 c2 : String) (k : Int) (es : List Ev), k ≠ 0 →
        chainRun [c1, c2] (Ev.exit k :: es) =
          (⟨false, [], false, false⟩,
           [Event.procStart c1, Event.procFinished false k, Event.chainFinished false]) ∧
        (c1 ≠ c2 → Event.procStart c2 ∉ (chainRun [c1, c2] (Ev.exit k :: es)).2)) ∧
    (∀ (cmds : List String) (es : List Ev),
        ∃ n, startsOf (chainRun cmds es).2 = cmds.take n ∧
          n ≤ oksOf (chainRun cmds es).2 + 1) := by
  constructor
  · intro c1 c2 k es hk
    have hmain : chainRun [c1, c2] (Ev.exit k :: es) =
        (⟨false, [], false, false⟩,
         [Event.procStart c1, Event.procFinished false k, Event.chainFinished false]) := by
      simp [chainRun, ProcessRunner.run_chain, ProcessRunner.run, ProcessRunner.initial,
        drive, stepEv, onProcessExit, hk, drive_dead]
    refine ⟨hmain, fun hne => ?_⟩
    rw [hmain]
    simp [Ne.symm hne]
  · intro cmds es
    have h := chainInv_drive cmds
      (ProcessRunner.run_chain ProcessRunner.initial cmds).1
      (ProcessRunner.run_chain ProcessRunner.initial cmds).2 es (chainInv_start cmds)
    have heq : (chainRun cmds es).2 =
        (ProcessRunner.run_chain ProcessRunner.initial cmds).2 ++
          (drive (ProcessRunner.run_chain ProcessRunner.initial cmds).1 es).2 := rfl
    rw [heq]
    obtain ⟨n, hnlen, hstarts, hst⟩ := h
    refine ⟨n, hstarts, ?_⟩
    rcases hst with ⟨_, _, _, hoks⟩ | ⟨_, _, hoks⟩ | ⟨_, hle⟩ | ⟨_, h0, _⟩ <;> omega

theorem chain_gating_and_failure_abort_witness :
    ((1 : Int) ≠ 0) ∧ (("a" : String) ≠ "b") ∧
    chainRun ["a", "b"] [Ev.exit 1] =
      (⟨false, [], false, false⟩,
       [Event.procStart "a", Event.procFinished false 1, Event.chainFinished false]) ∧
    Event.procStart "b" ∉ (chainRun ["a", "b"] [Ev.exit 1]).2 :=
  ⟨by decide, by decide,
   (chain_gating_and_failure_abort.1 "a" "b" 1 [] (by decide)).1,
   (chain_gating_and_failure_abort.1 "a" "b" 1 [] (by decide)).2 (by decide)⟩
